import Mathlib

/-!
Verification of the ai-server message/tool translation core.

Shallow embedding of the JavaScript sources:
* `src/utils/messageUtils.js`   — content extraction, message validation,
  Vertex-AI message translation;
* `src/services/taskContinuationService.js` — the autonomous task
  continuation heuristic;
* `src/services/vertexService.js` — sampling-parameter clamping, the
  autonomous system message, tool conversion/fallback, response
  normalisation;
* `src/config/models.js` — the model registry;
* `src/routes/chatRoutes.js` — the streaming adapter loop.

JavaScript values that can be absent are modelled as `Option`; JavaScript
truthiness is modelled by `jsTruthy`; string operations (`split`,
`includes`, `startsWith`, `toLowerCase`, `trim`) are modelled on
`List Char` / `String` with the same semantics.
-/

namespace AiServer

/-- A JSON-like JavaScript value (numbers restricted to integers, which is
all the sources ever put in these positions). -/
inductive Json where
  | null : Json
  | bool (b : Bool) : Json
  | num (n : Int) : Json
  | str (s : String) : Json
  | arr (items : List Json) : Json
  | obj (fields : List (String × Json)) : Json
  deriving Repr, Inhabited

/-- JavaScript truthiness of a value (`undefined` is handled at `Option`
level by the callers). -/
def jsTruthy : Json → Bool
  | .null => false
  | .bool b => b
  | .num n => n != 0
  | .str s => s != ""
  | .arr _ => true
  | .obj _ => true

mutual

/-- JavaScript `String(x)` coercion (ToString semantics; arrays join with
commas, plain objects render as `[object Object]`). -/
def jsToString : Json → String
  | .null => "null"
  | .bool b => if b then "true" else "false"
  | .num n => toString n
  | .str s => s
  | .arr items => String.intercalate "," (jsToStringList items)
  | .obj _ => "[object Object]"

def jsToStringList : List Json → List String
  | [] => []
  | x :: xs => jsToString x :: jsToStringList xs

end

/-- JSON string escaping as performed by `JSON.stringify`. -/
def jsonEscapeChar (c : Char) : String :=
  if c = '"' then "\\\""
  else if c = '\\' then "\\\\"
  else if c = '\n' then "\\n"
  else if c = '\r' then "\\r"
  else if c = '\t' then "\\t"
  else if c.toNat < 32 then
    "\\u00" ++ (if c.toNat / 16 = 0 then "0" else "1") ++
      String.singleton (Nat.digitChar (c.toNat % 16))
  else String.singleton c

def jsonEscape (s : String) : String :=
  String.join (s.data.map jsonEscapeChar)

mutual

/-- Embeds `JSON.stringify` on our value model. -/
def jsonStringify : Json → String
  | .null => "null"
  | .bool b => if b then "true" else "false"
  | .num n => toString n
  | .str s => "\"" ++ jsonEscape s ++ "\""
  | .arr items => "[" ++ String.intercalate "," (jsonStringifyList items) ++ "]"
  | .obj fields => "\x7b" ++ String.intercalate "," (jsonStringifyFields fields) ++ "\x7d"

def jsonStringifyList : List Json → List String
  | [] => []
  | x :: xs => jsonStringify x :: jsonStringifyList xs

def jsonStringifyFields : List (String × Json) → List String
  | [] => []
  | (k, v) :: xs => ("\"" ++ jsonEscape k ++ "\":" ++ jsonStringify v) :: jsonStringifyFields xs

end

/-- JavaScript `haystack.includes(needle)` (substring membership). -/
def jsIncludes (s pat : String) : Bool :=
  (List.range (s.data.length + 1)).any fun i => pat.data.isPrefixOf (s.data.drop i)

/-- JavaScript `s.startsWith(pre)`. -/
def jsStartsWith (s pre : String) : Bool :=
  pre.data.isPrefixOf s.data

/-- JavaScript `s.split(sep)` for a one-character separator, on the
character-list level: splits at every occurrence, keeping empty pieces. -/
def splitOnChar (c : Char) : List Char → List (List Char)
  | [] => [[]]
  | d :: rest =>
    match splitOnChar c rest with
    | [] => [[]]
    | w :: ws => if d = c then [] :: w :: ws else (d :: w) :: ws

/-- JavaScript `s.split(sep)` for a one-character separator. -/
def jsSplit (s : String) (c : Char) : List String :=
  (splitOnChar c s.data).map fun l => ⟨l⟩

theorem splitOnChar_ne_nil (c : Char) (l : List Char) : splitOnChar c l ≠ [] := by
  cases l with
  | nil => simp [splitOnChar]
  | cons d rest =>
    simp only [splitOnChar]
    cases h : splitOnChar c rest with
    | nil => simp
    | cons w ws => by_cases hd : d = c <;> simp [hd]

/-- Every piece produced by `splitOnChar c` avoids the separator `c`. -/
theorem splitOnChar_not_mem (c : Char) (l : List Char) :
    ∀ w ∈ splitOnChar c l, c ∉ w := by
  induction l with
  | nil =>
    intro w hw hc
    simp only [splitOnChar, List.mem_singleton] at hw
    subst hw
    simp at hc
  | cons d rest ih =>
    intro w hw hc
    rcases hsplit : splitOnChar c rest with _ | ⟨w0, ws⟩
    · exact splitOnChar_ne_nil c rest hsplit
    · simp only [splitOnChar, hsplit] at hw
      by_cases hd : d = c
      · rw [if_pos hd] at hw
        rcases List.mem_cons.mp hw with rfl | hw2
        · simp at hc
        · exact ih w (hsplit ▸ hw2) hc
      · rw [if_neg hd] at hw
        rcases List.mem_cons.mp hw with rfl | hw2
        · rcases List.mem_cons.mp hc with rfl | hc2
          · exact hd rfl
          · exact ih w0 (hsplit ▸ List.mem_cons_self w0 ws) hc2
        · exact ih w (hsplit ▸ List.mem_cons_of_mem w0 hw2) hc

/-- Re-joining the pieces of `splitOnChar c` with `c` restores the input. -/
def joinWithChar (c : Char) : List (List Char) → List Char
  | [] => []
  | [w] => w
  | w :: ws => w ++ c :: joinWithChar c ws

theorem joinWithChar_splitOnChar (c : Char) (l : List Char) :
    joinWithChar c (splitOnChar c l) = l := by
  induction l with
  | nil => simp [splitOnChar, joinWithChar]
  | cons d rest ih =>
    rcases hsplit : splitOnChar c rest with _ | ⟨w, ws⟩
    · exact absurd hsplit (splitOnChar_ne_nil c rest)
    · rw [hsplit] at ih
      simp only [splitOnChar, hsplit]
      by_cases hd : d = c
      · subst hd
        simp only [if_pos rfl, joinWithChar]
        cases ws <;> simpa [joinWithChar] using ih
      · simp only [if_neg hd]
        cases ws <;> simpa [joinWithChar] using congrArg (d :: ·) ih

/-! ### Message data model (`src/utils/messageUtils.js`) -/

/-- The `function` object inside a `tool_calls[]` entry: `{name, arguments}`
(either field may be absent on malformed input). -/
structure FuncRef where
  name : Option String
  arguments : Option String
  deriving Repr, Inhabited, DecidableEq

/-- An entry of an assistant message's `tool_calls` array. -/
structure ToolCallEntry where
  id : Option String
  type : Option String
  function : Option FuncRef
  deriving Repr, Inhabited, DecidableEq

/-- An OpenAI-style chat message. A missing `role` is modelled as `""`
(both fail validation identically); missing `content` / `tool_call_id` /
`tool_calls` are `none`. -/
structure Message where
  role : String
  content : Option Json
  tool_call_id : Option String
  tool_calls : Option (List ToolCallEntry)
  deriving Repr, Inhabited

/-- Truthiness of an optional string-valued JS field. -/
def truthyStrOpt : Option String → Bool
  | some s => s != ""
  | none => false

/-- Truthiness of an optional JS value. -/
def jsTruthyOpt : Option Json → Bool
  | some v => jsTruthy v
  | none => false

/-- Embeds `if (obj.key)`-style access: the field, provided it is present and
truthy. -/
def truthyField (fields : List (String × Json)) (key : String) : Option Json :=
  match fields.lookup key with
  | some v => if jsTruthy v then some v else none
  | none => none

/-- One element of a content-part array, as mapped inside
`extractMessageContent`: a string element verbatim; an object element's
`.text` when truthy (the `type === "text"` guard is subsumed by the
following plain `item.text` check, both returning `item.text`); anything
else contributes `""`. -/
def extractArrayItem (item : Json) : Json :=
  match item with
  | .str s => .str s
  | .obj fields =>
      match fields.lookup "type", truthyField fields "text" with
      | some (.str "text"), some tv => tv
      | _, some tv => tv
      | _, none => .str ""
  | _ => .str ""

/-- Embeds `extractMessageContent` from `src/utils/messageUtils.js` (logging
dropped). Returns the JavaScript value the function returns; in every
string-producing branch that is a `Json.str`. -/
def extractMessageContent (msg : Message) : Json :=
  match msg.content with
  | some (.str s) => .str s
  | some (.arr items) =>
      .str (String.trim (String.intercalate " " ((items.map extractArrayItem).map jsToString)))
  | some (.obj fields) =>
      match truthyField fields "text" with
      | some t => t
      | none =>
        match truthyField fields "content" with
        | some cv => cv
        | none => .str (jsonStringify (.obj fields))
  | some v => .str (if jsTruthy v then jsToString v else "")
  | none => .str ""

/-! ### `validateMessages` (`src/utils/messageUtils.js`) -/

def validRoles : List String := ["system", "user", "assistant", "tool"]

/-- Validation of one `tool_calls[]` entry, mirroring the inner loop of
`validateMessages`. -/
def validateToolCall (toolCall : ToolCallEntry) : Except String Unit :=
  if !truthyStrOpt toolCall.id || !truthyStrOpt toolCall.type || toolCall.function.isNone then
    .error "Each tool call must have id, type, and function properties"
  else if toolCall.type ≠ some "function" then
    .error "Only function tool calls are supported"
  else if !truthyStrOpt (toolCall.function.bind FuncRef.name) then
    .error "Function tool calls must have a name"
  else .ok ()

/-- Embeds `typeof content === "string" || Array.isArray(content)`. -/
def contentIsStringOrArray : Option Json → Bool
  | some (.str _) => true
  | some (.arr _) => true
  | _ => false

/-- Validation of a single message, mirroring the body of the
`for (const message of messages)` loop. (`tool_calls` is a typed list in
the model, so the `Array.isArray` guard cannot fail.) -/
def validateMessage (message : Message) : Except String Unit :=
  if message.role = "" then
    .error "Each message must have a role property"
  else if !validRoles.contains message.role then
    .error "Message role must be system, user, assistant, or tool"
  else if message.role = "tool" then
    if !jsTruthyOpt message.content then
      .error "Tool messages must have content"
    else if !truthyStrOpt message.tool_call_id then
      .error "Tool messages must have tool_call_id"
    else .ok ()
  else if message.role = "assistant" ∧ message.tool_calls.isSome then
    (message.tool_calls.getD []).forM validateToolCall
  else
    if !jsTruthyOpt message.content then
      .error "Messages must have content property"
    else if !contentIsStringOrArray message.content then
      .error "Message content must be a string or array"
    else .ok ()

/-- Embeds `validateMessages` from `src/utils/messageUtils.js` (the
`Array.isArray(messages)` guard is unrepresentable for a typed list). -/
def validateMessages (messages : List Message) : Except String Unit :=
  if messages.isEmpty then .error "Messages array cannot be empty"
  else messages.forM validateMessage

/-! ### A `JSON.parse` model (used for tool-call `arguments` strings) -/

def isJsonWs (c : Char) : Bool := c = ' ' || c = '\n' || c = '\t' || c = '\r'

def skipWs (l : List Char) : List Char := l.dropWhile isJsonWs

def openBrace : Char := Char.ofNat 123

def closeBrace : Char := Char.ofNat 125

def hexVal? (c : Char) : Option Nat :=
  if '0' ≤ c ∧ c ≤ '9' then some (c.toNat - '0'.toNat)
  else if 'a' ≤ c ∧ c ≤ 'f' then some (c.toNat - 'a'.toNat + 10)
  else if 'A' ≤ c ∧ c ≤ 'F' then some (c.toNat - 'A'.toNat + 10)
  else none

/-- Body of a JSON string literal (after the opening quote), with the
standard escapes. -/
def parseStringBody : Nat → List Char → Option (List Char × List Char)
  | 0, _ => none
  | _, [] => none
  | fuel+1, c :: rest =>
    if c = '"' then some ([], rest)
    else if c = '\\' then
      match rest with
      | [] => none
      | e :: rest2 =>
        if e = '"' then (parseStringBody fuel rest2).map fun (s, r) => ('"' :: s, r)
        else if e = '\\' then (parseStringBody fuel rest2).map fun (s, r) => ('\\' :: s, r)
        else if e = '/' then (parseStringBody fuel rest2).map fun (s, r) => ('/' :: s, r)
        else if e = 'n' then (parseStringBody fuel rest2).map fun (s, r) => ('\n' :: s, r)
        else if e = 't' then (parseStringBody fuel rest2).map fun (s, r) => ('\t' :: s, r)
        else if e = 'r' then (parseStringBody fuel rest2).map fun (s, r) => ('\r' :: s, r)
        else if e = 'b' then (parseStringBody fuel rest2).map fun (s, r) => (Char.ofNat 8 :: s, r)
        else if e = 'f' then (parseStringBody fuel rest2).map fun (s, r) => (Char.ofNat 12 :: s, r)
        else if e = 'u' then
          match rest2 with
          | h1 :: h2 :: h3 :: h4 :: rest3 =>
            match hexVal? h1, hexVal? h2, hexVal? h3, hexVal? h4 with
            | some a, some b, some c2, some d =>
              (parseStringBody fuel rest3).map fun (s, r) =>
                (Char.ofNat (((a * 16 + b) * 16 + c2) * 16 + d) :: s, r)
            | _, _, _, _ => none
          | _ => none
        else none
    else (parseStringBody fuel rest).map fun (s, r) => (c :: s, r)

def digitsToNat (ds : List Char) : Nat :=
  ds.foldl (fun acc c => acc * 10 + (c.toNat - '0'.toNat)) 0

/-- An integer literal (JSON numbers in this codebase are integers). -/
def parseIntLit (l : List Char) : Option (Int × List Char) :=
  let (neg, l') := match l with
    | '-' :: r => (true, r)
    | _ => (false, l)
  let ds := l'.takeWhile Char.isDigit
  if ds.isEmpty then none
  else
    let n : Int := Int.ofNat (digitsToNat ds)
    some (if neg then -n else n, l'.drop ds.length)

mutual

/-- Recursive-descent `JSON.parse` core, fuel-bounded. -/
def parseJsonAux : Nat → List Char → Option (Json × List Char)
  | 0, _ => none
  | fuel+1, input =>
    match skipWs input with
    | [] => none
    | c :: rest =>
      if c = 'n' then
        match rest with
        | 'u' :: 'l' :: 'l' :: r => some (.null, r)
        | _ => none
      else if c = 't' then
        match rest with
        | 'r' :: 'u' :: 'e' :: r => some (.bool true, r)
        | _ => none
      else if c = 'f' then
        match rest with
        | 'a' :: 'l' :: 's' :: 'e' :: r => some (.bool false, r)
        | _ => none
      else if c = '"' then
        (parseStringBody (fuel + 1) rest).map fun (s, r) => (.str ⟨s⟩, r)
      else if c = '[' then
        match skipWs rest with
        | ']' :: r => some (.arr [], r)
        | r1 => (parseElems fuel r1).map fun (xs, r) => (.arr xs, r)
      else if c = openBrace then
        match skipWs rest with
        | r1 =>
          if r1.head? = some closeBrace then some (.obj [], r1.tail)
          else (parseFields fuel r1).map fun (fs, r) => (.obj fs, r)
      else if c = '-' ∨ c.isDigit then
        (parseIntLit (c :: rest)).map fun (n, r) => (.num n, r)
      else none

/-- Comma-separated array elements up to `]`. -/
def parseElems : Nat → List Char → Option (List Json × List Char)
  | 0, _ => none
  | fuel+1, l => do
    let (v, r) ← parseJsonAux fuel l
    match skipWs r with
    | ',' :: r2 => (parseElems fuel r2).map fun (xs, r3) => (v :: xs, r3)
    | ']' :: r2 => some ([v], r2)
    | _ => none

/-- Comma-separated object members up to the closing brace. -/
def parseFields : Nat → List Char → Option (List (String × Json) × List Char)
  | 0, _ => none
  | fuel+1, l =>
    match skipWs l with
    | '"' :: r => do
      let (k, r1) ← parseStringBody (fuel + 1) r
      match skipWs r1 with
      | ':' :: r2 => do
        let (v, r3) ← parseJsonAux fuel r2
        match skipWs r3 with
        | ',' :: r4 => (parseFields fuel r4).map fun (fs, r5) => ((⟨k⟩, v) :: fs, r5)
        | r4 =>
          if r4.head? = some closeBrace then some ([(⟨k⟩, v)], r4.tail)
          else none
      | _ => none
    | _ => none

end

/-- Embeds `JSON.parse`: `none` models a thrown `SyntaxError`. -/
def jsonParse (s : String) : Option Json :=
  match parseJsonAux (s.data.length + 2) s.data with
  | some (v, rest) => if (skipWs rest).isEmpty then some v else none
  | none => none

/-! ### `processMessagesForVertexAI` (`src/utils/messageUtils.js`) -/

/-- A part of a Vertex-AI `contents[]` entry. -/
inductive VPart where
  | text (value : Json)
  | functionResponse (name : String) (result : Json)
  | functionCall (name : Option String) (args : Json)
  deriving Repr, Inhabited

/-- A Vertex-AI `contents[]` entry. -/
structure VContent where
  role : String
  parts : List VPart
  deriving Repr, Inhabited

/-- The function-call parts pushed for an assistant message's
`tool_calls`: one part per `type === "function"` entry, with
`JSON.parse(toolCall.function.arguments || '\x7b\x7d')`. A missing
`function` object or a malformed arguments string is a thrown error. -/
def assistantCallParts : List ToolCallEntry → Except String (List VPart)
  | [] => .ok []
  | tc :: rest =>
    if tc.type = some "function" then
      match tc.function with
      | none => .error "TypeError: cannot read properties of undefined"
      | some f =>
        let argStr := match f.arguments with
          | some s => if s ≠ "" then s else "\x7b\x7d"
          | none => "\x7b\x7d"
        match jsonParse argStr with
        | none => .error "SyntaxError: unexpected token in JSON"
        | some args => (assistantCallParts rest).map fun ps => .functionCall f.name args :: ps
    else assistantCallParts rest

/-- Translation of the `i`-th non-system message (mirrors the loop body of
`processMessagesForVertexAI`. For the `content && content.trim()` guard the
extracted value is coerced to a string before trimming, as JS would for the
string values this code path receives). -/
def processVertexMessage (systemMessage : Json) (i : Nat) (message : Message) :
    Except String VContent :=
  let content := extractMessageContent message
  if message.role = "tool" then
    let name := match message.tool_call_id with
      | some s => if s ≠ "" then s else "unknown_function"
      | none => "unknown_function"
    .ok ⟨"function", [.functionResponse name content]⟩
  else if message.role = "assistant" ∧ message.tool_calls.isSome then
    let textParts :=
      if jsTruthy content ∧ (jsToString content).trim ≠ "" then [VPart.text content] else []
    (assistantCallParts (message.tool_calls.getD [])).map fun callParts =>
      ⟨"model", textParts ++ callParts⟩
  else
    if i = 0 ∧ message.role = "user" ∧ jsTruthy systemMessage then
      .ok ⟨"user", [.text (.str (jsToString systemMessage ++ "\n\nUser: " ++ jsToString content))]⟩
    else
      .ok ⟨if message.role = "assistant" then "model" else "user", [.text content]⟩

/-- Embeds `processMessagesForVertexAI` from `src/utils/messageUtils.js`: extract
the first system message, translate the remaining messages in order. -/
def processMessagesForVertexAI (messages : List Message) : Except String (List VContent) :=
  let systemMessage : Json :=
    match messages.find? (fun m => m.role == "system") with
    | some m => extractMessageContent m
    | none => .str ""
  let nonSystem := messages.filter (fun m => m.role != "system")
  nonSystem.enum.mapM fun p => processVertexMessage systemMessage p.1 p.2

/-! ### Task continuation heuristic
(`src/services/taskContinuationService.js`) -/

/-- A suggested next step `{tool, reason}`. -/
structure NextStep where
  tool : String
  reason : String
  deriving Repr, Inhabited, DecidableEq

/-- A caller-supplied tool declaration
`{type:"function", function:{name, description?, parameters?}}`. -/
structure FuncDecl where
  name : String
  description : Option String
  parameters : Option Json
  deriving Repr, Inhabited

/-- A tool declaration as supplied in the request's `tools` array. -/
structure ToolDecl where
  type : String
  function : FuncDecl
  deriving Repr, Inhabited

/-- Embeds `msg.role === "assistant" && msg.tool_calls && msg.tool_calls.length > 0`. -/
def isAssistantWithToolCalls (m : Message) : Bool :=
  m.role == "assistant" &&
    (match m.tool_calls with
     | some l => decide (l.length > 0)
     | none => false)

/-- Embeds `findLastAssistantToolCall`, returned as the index of the matching
message (the JS code returns the message and later recovers this index via
`lastIndexOf` on the object reference). -/
def findLastAssistantToolCallIdx (messages : List Message) : Option Nat :=
  (List.range messages.length).reverse.find? fun i =>
    isAssistantWithToolCalls (messages.getD i default)

/-- Embeds `findToolResults`: the `tool` messages after the assistant message
whose `tool_call_id` is among that message's `tool_calls[].id` (JS
`includes` compares `undefined === undefined`, hence `Option` equality). -/
def findToolResults (messages : List Message) (assistantIdx : Nat) (am : Message) :
    List Message :=
  let toolCallIds := (am.tool_calls.getD []).map ToolCallEntry.id
  (messages.drop (assistantIdx + 1)).filter fun m =>
    m.role == "tool" && toolCallIds.contains m.tool_call_id

/-- Embeds `extractToolNameFromResult`: split the `tool_call_id` on `'_'` and
return the first part that starts with `"builtin_"`, else `"unknown"`. -/
def extractToolNameFromResult (toolResult : Message) : String :=
  match toolResult.tool_call_id with
  | some id =>
    match (jsSplit id '_').find? (fun part => jsStartsWith part "builtin_") with
    | some part => part
    | none => "unknown"
  | none => "unknown"

/-- Embeds `msg.content || ""`, coerced to the string the heuristic helpers
receive. -/
def jsContentOrEmpty (c : Option Json) : String :=
  match c with
  | some j => if jsTruthy j then jsToString j else ""
  | none => ""

def inferTaskTypeFromFileRead (request _fileContent : String) : String :=
  let lowerRequest := request.toLower
  if jsIncludes lowerRequest "fix" || jsIncludes lowerRequest "bug" ||
      jsIncludes lowerRequest "error" then "debug_fix"
  else if jsIncludes lowerRequest "add" || jsIncludes lowerRequest "implement" ||
      jsIncludes lowerRequest "create" then "feature_add"
  else if jsIncludes lowerRequest "refactor" || jsIncludes lowerRequest "improve" ||
      jsIncludes lowerRequest "optimize" then "refactor"
  else if jsIncludes lowerRequest "test" || jsIncludes lowerRequest "spec" then "testing"
  else "analysis"

def shouldContinueAfterRead (request _fileContent : String) : Bool :=
  let lowerRequest := request.toLower
  ["fix", "edit", "modify", "add", "implement", "create", "update", "change",
    "improve"].any fun word => jsIncludes lowerRequest word

/-- Embeds `availableTools.some(t => t.function.name === name)`. -/
def hasTool (availableTools : List ToolDecl) (name : String) : Bool :=
  availableTools.any fun t => t.function.name == name

def suggestNextStepsAfterRead (request _fileContent : String)
    (availableTools : List ToolDecl) : List NextStep :=
  let lowerRequest := request.toLower
  (if (jsIncludes lowerRequest "fix" || jsIncludes lowerRequest "bug") &&
      hasTool availableTools "builtin_edit_existing_file" then
    [⟨"builtin_edit_existing_file", "Fix identified issues in the file"⟩]
  else []) ++
  (if (jsIncludes lowerRequest "add" || jsIncludes lowerRequest "implement") &&
      hasTool availableTools "builtin_edit_existing_file" then
    [⟨"builtin_edit_existing_file", "Add requested functionality to the file"⟩]
  else []) ++
  (if jsIncludes lowerRequest "test" &&
      hasTool availableTools "builtin_run_terminal_command" then
    [⟨"builtin_run_terminal_command", "Run tests to verify the changes"⟩]
  else [])

def shouldContinueAfterList (request _listContent : String) : Bool :=
  let lowerRequest := request.toLower
  jsIncludes lowerRequest "analyze" || jsIncludes lowerRequest "fix" ||
    jsIncludes lowerRequest "modify"

def suggestNextStepsAfterList (_request _listContent : String)
    (availableTools : List ToolDecl) : List NextStep :=
  if hasTool availableTools "builtin_read_file" then
    [⟨"builtin_read_file", "Read relevant files from the directory listing"⟩]
  else []

def shouldContinueAfterSearch (_request searchContent : String) : Bool :=
  searchContent.length > 0

def suggestNextStepsAfterSearch (_request _searchContent : String)
    (availableTools : List ToolDecl) : List NextStep :=
  if hasTool availableTools "builtin_read_file" then
    [⟨"builtin_read_file", "Read files found in search results"⟩]
  else []

def shouldContinueAfterCommand (request commandOutput : String) : Bool :=
  jsIncludes commandOutput "error" || jsIncludes commandOutput "failed" ||
    jsIncludes request.toLower "setup" || jsIncludes request.toLower "install"

def suggestNextStepsAfterCommand (_request commandOutput : String)
    (availableTools : List ToolDecl) : List NextStep :=
  if jsIncludes commandOutput "error" && hasTool availableTools "builtin_read_file" then
    [⟨"builtin_read_file", "Read configuration files to fix command errors"⟩]
  else []

def calculateCompletionLevel (taskType : String) (toolResults : List Message) : Nat :=
  let toolCount := toolResults.length
  if taskType = "debug_fix" then min (toolCount * 25) 100
  else if taskType = "feature_add" then min (toolCount * 25) 100
  else if taskType = "analysis" then min (toolCount * 50) 100
  else min (toolCount * 33) 100

/-- Intermediate analysis record in `analyzeTaskCompleteness`. -/
structure TaskAnalysis where
  needsContinuation : Bool
  taskType : String
  completionLevel : Nat
  suggestedNextSteps : List NextStep
  deriving Repr, Inhabited

/-- One iteration of the `for (const toolResult of toolResults)` switch. -/
def analyzeOneToolResult (originalRequest : String) (availableTools : List ToolDecl)
    (analysis : TaskAnalysis) (toolResult : Message) : TaskAnalysis :=
  let toolName := extractToolNameFromResult toolResult
  let toolContent := jsContentOrEmpty toolResult.content
  if toolName = "builtin_read_file" then
    let taskType := inferTaskTypeFromFileRead originalRequest toolContent
    let needsContinuation := shouldContinueAfterRead originalRequest toolContent
    { analysis with
        taskType, needsContinuation,
        suggestedNextSteps :=
          if needsContinuation then
            suggestNextStepsAfterRead originalRequest toolContent availableTools
          else analysis.suggestedNextSteps }
  else if toolName = "builtin_list_directory" then
    let needsContinuation := shouldContinueAfterList originalRequest toolContent
    { analysis with
        needsContinuation,
        suggestedNextSteps :=
          if needsContinuation then
            suggestNextStepsAfterList originalRequest toolContent availableTools
          else analysis.suggestedNextSteps }
  else if toolName = "builtin_search_files" then
    let needsContinuation := shouldContinueAfterSearch originalRequest toolContent
    { analysis with
        needsContinuation,
        suggestedNextSteps :=
          if needsContinuation then
            suggestNextStepsAfterSearch originalRequest toolContent availableTools
          else analysis.suggestedNextSteps }
  else if toolName = "builtin_run_terminal_command" then
    let needsContinuation := shouldContinueAfterCommand originalRequest toolContent
    { analysis with
        needsContinuation,
        suggestedNextSteps :=
          if needsContinuation then
            suggestNextStepsAfterCommand originalRequest toolContent availableTools
          else analysis.suggestedNextSteps }
  else analysis

/-- Embeds `analyzeTaskCompleteness` (logging dropped). -/
def analyzeTaskCompleteness (messages : List Message) (toolResults : List Message)
    (availableTools : List ToolDecl) : TaskAnalysis :=
  let userMessages := messages.filter fun m => m.role == "user"
  let originalRequest := jsContentOrEmpty (userMessages.getLast?.bind Message.content)
  let analysis := toolResults.foldl (analyzeOneToolResult originalRequest availableTools)
    ⟨false, "unknown", 0, []⟩
  { analysis with completionLevel := calculateCompletionLevel analysis.taskType toolResults }

/-- The `taskState` object of a positive continuation analysis. -/
structure TaskState where
  lastToolCall : ToolCallEntry
  toolResults : List Message
  taskType : String
  completionLevel : Nat
  nextSteps : List NextStep
  deriving Repr, Inhabited

/-- Result of `analyzeTaskContinuation`. -/
structure ContinuationResult where
  shouldContinue : Bool
  taskState : Option TaskState
  deriving Repr, Inhabited

/-- Embeds `analyzeTaskContinuation` from
`src/services/taskContinuationService.js`. -/
def analyzeTaskContinuation (messages : List Message) (tools : List ToolDecl) :
    ContinuationResult :=
  if messages.length < 2 then ⟨false, none⟩
  else
    match findLastAssistantToolCallIdx messages with
    | none => ⟨false, none⟩
    | some i =>
      let am := messages.getD i default
      let toolResults := findToolResults messages i am
      if toolResults.isEmpty then ⟨false, none⟩
      else
        let taskAnalysis := analyzeTaskCompleteness messages toolResults tools
        ⟨taskAnalysis.needsContinuation,
          some ⟨(am.tool_calls.getD []).headD default, toolResults,
            taskAnalysis.taskType, taskAnalysis.completionLevel,
            taskAnalysis.suggestedNextSteps⟩⟩

/-! ### `vertexService.js`: sampling clamps, tools, autonomous message -/

/-- The `generationConfig` object built for the native (google) backend. -/
structure GenerationConfig where
  temperature : Rat
  maxOutputTokens : Rat
  topP : Rat
  topK : Rat
  deriving Repr, DecidableEq

/-- The four `Math.max(lo, Math.min(hi, x))` clamps of
`generateGoogleModelCompletion`. -/
def googleGenerationConfig (temperature max_tokens top_p top_k : Rat) : GenerationConfig :=
  ⟨max 0 (min 2 temperature), max 1 (min 8192 max_tokens),
    max 0 (min 1 top_p), max 1 (min 40 top_k)⟩

/-- A Vertex `functionDeclarations[]` entry. -/
structure VertexFunctionDeclaration where
  name : String
  description : String
  parameters : Json
  deriving Repr, Inhabited

/-- The `{functionDeclarations}` wrapper returned by the converters. -/
structure VertexTools where
  functionDeclarations : List VertexFunctionDeclaration
  deriving Repr, Inhabited

/-- Embeds `convertOpenAIToolsToVertex` (console logging dropped). -/
def convertOpenAIToolsToVertex (tools : List ToolDecl) : Option VertexTools :=
  if tools.isEmpty then none
  else
    let functionDeclarations := tools.filterMap fun tool =>
      if tool.type = "function" then
        some (⟨tool.function.name, tool.function.description.getD "",
          tool.function.parameters.getD (.obj [])⟩ : VertexFunctionDeclaration)
      else none
    if functionDeclarations.isEmpty then none
    else some ⟨functionDeclarations⟩

/-- The fixed tail of the autonomous-operation instruction template
(everything after the interpolated tool names). -/
def autonomousInstructionsBody : String :=
  String.intercalate "\n"
    ["",
     "",
     "CRITICAL INSTRUCTIONS FOR AUTONOMOUS OPERATION:",
     "1. ALWAYS USE TOOLS IMMEDIATELY when the user requests file operations, code analysis, or terminal commands",
     "2. NEVER ask for permission or confirmation - execute tools directly and show results",
     "3. When user says \"read file X\", immediately call builtin_read_file with the filepath",
     "4. When user says \"edit file X\", immediately call builtin_edit_existing_file with changes",
     "5. When user says \"run command X\", immediately call builtin_run_terminal_command",
     "6. When user asks about project structure, immediately call builtin_list_directory",
     "7. When user asks to find files, immediately call builtin_search_files",
     "8. Be proactive - if you need information to complete a task, get it immediately using tools",
     "9. Chain tool calls when needed - read files to understand context, then make edits",
     "10. NEVER respond with \"I need permission\", \"Should I...\", or \"Let me know if...\" - just execute the tools",
     "11. Execute tools first, then explain what you did",
     "12. If a user asks about code, immediately read the relevant files to provide accurate information",
     "13. If a user wants changes, immediately make them using the appropriate tools",
     "",
     "MULTI-TURN TASK COMPLETION:",
     "14. CONTINUE WORKING until the task is COMPLETELY finished",
     "15. If you call a tool and get results, ANALYZE them and continue with next steps automatically",
     "16. For complex tasks, break them down and execute each step sequentially",
     "17. Don\x27t stop after one tool call - keep going until the entire task is done",
     "18. If you read a file and need to edit it, do both operations in sequence",
     "19. If you need to create multiple files, create them all",
     "20. If you need to run multiple commands, run them all",
     "21. Only stop when the ENTIRE task is 100% complete",
     "",
     "EXAMPLES OF COMPLETE TASK EXECUTION:",
     "- \"Fix the bug in main.js\" → Read file → Analyze code → Identify bug → Edit file → Verify fix",
     "- \"Add error handling to all API calls\" → List files → Read each file → Edit each file with error handling",
     "- \"Setup a new React component\" → Create component file → Create test file → Update exports → Update documentation",
     "- \"Install and configure ESLint\" → Run install command → Create config file → Update package.json → Run initial lint",
     "",
     "Your goal is to be as autonomous as Cursor IDE - execute tools immediately and CONTINUE until tasks are fully complete."]

/-- The autonomous-operation instruction template of
`createAutonomousSystemMessage`, as a function of the joined tool names. -/
def autonomousInstructions (toolNames : String) : String :=
  "You are an autonomous AI coding assistant with direct access to file system and terminal tools. Available tools: "
    ++ toolNames ++ "." ++ autonomousInstructionsBody

/-- Embeds `createAutonomousSystemMessage(tools)`. -/
def createAutonomousSystemMessage (tools : List ToolDecl) : Message :=
  ⟨"system",
    some (.str (autonomousInstructions
      (String.intercalate ", " (tools.map fun t => t.function.name)))),
    none, none⟩

/-- Embeds `generateGoogleModelCompletion`: the message list actually translated —
the caller's messages, with the autonomous system message prepended when
tools are present. -/
def googleProcessedMessages (tools : List ToolDecl) (messages : List Message) :
    List Message :=
  if tools.length > 0 then createAutonomousSystemMessage tools :: messages else messages

/-- The `contents` sent to the native backend. -/
def googleContents (tools : List ToolDecl) (messages : List Message) :
    Except String (List VContent) :=
  processMessagesForVertexAI (googleProcessedMessages tools messages)

/-! ### Multi-tool fallback orchestration (`generateGoogleModelCompletion`) -/

/-- A `functionCall` part of a backend candidate. -/
structure FunctionCallPart where
  name : String
  args : Option Json
  deriving Repr, Inhabited

/-- A backend candidate content part. -/
structure GPart where
  text : Option String
  functionCall : Option FunctionCallPart
  deriving Repr, Inhabited

/-- The first backend candidate (`parts = none` models a candidate without
`content`/`content.parts`). -/
structure GCandidate where
  parts : Option (List GPart)
  finishReason : Option String
  deriving Repr, Inhabited

/-- A synthesized OpenAI-style tool call. -/
structure ToolCallOut where
  id : String
  type : String
  name : String
  argumentsJson : String
  deriving Repr, Inhabited, DecidableEq

/-- Embeds `text += part.text` over the parts loop (truthy parts only). -/
def collectText (parts : List GPart) : String :=
  parts.foldl
    (fun acc p => match p.text with
      | some s => if s ≠ "" then acc ++ s else acc
      | none => acc) ""

/-- Embeds `part.functionCall.args || \x7b\x7d`. -/
def jsArgsOrEmptyObj (args : Option Json) : Json :=
  match args with
  | some a => if jsTruthy a then a else .obj []
  | none => .obj []

/-- The tool calls synthesized over the parts loop; the `k`-th one takes
the `k`-th `Math.random()` suffix (and `Date.now()` as `timestamp`). -/
def collectToolCalls (timestamp : Nat) (suffixes : Nat → String) (parts : List GPart) :
    List ToolCallOut :=
  (parts.filterMap GPart.functionCall).enum.map fun p =>
    ⟨"call_" ++ toString timestamp ++ "_" ++ suffixes p.1, "function", p.2.name,
      jsonStringify (jsArgsOrEmptyObj p.2.args)⟩

/-- Whether any part of the candidate carries a `functionCall`. -/
def candidateHasFunctionCall (cand : GCandidate) : Bool :=
  (cand.parts.getD []).any fun p => p.functionCall.isSome

/-- The `finish_reason` computed by `generateNonStreamingResponse`: the
parts loop sets `tool_calls` when a function call is seen, then a truthy
`candidate.finishReason` runs through the switch. -/
def nonStreamingFinishReason (cand : GCandidate) : String :=
  let hasFC := candidateHasFunctionCall cand
  let base := if hasFC then "tool_calls" else "stop"
  match cand.finishReason with
  | none => base
  | some fr =>
    if fr = "" then base
    else if fr = "STOP" then (if hasFC then "tool_calls" else "stop")
    else if fr = "MAX_TOKENS" then "length"
    else if fr = "SAFETY" then "content_filter"
    else "stop"

/-- The normalized first choice of a non-streaming native response with a
candidates array. -/
structure NormalizedChoice where
  content : Option String
  tool_calls : List ToolCallOut
  finish_reason : String
  deriving Repr, Inhabited

def normalizeGoogleCandidate (timestamp : Nat) (suffixes : Nat → String)
    (cand : GCandidate) : NormalizedChoice :=
  let text := collectText (cand.parts.getD [])
  ⟨if text ≠ "" then some text else none,
    collectToolCalls timestamp suffixes (cand.parts.getD []),
    nonStreamingFinishReason cand⟩

/-! ### Third-party request builder (`buildThirdPartyRequest`) -/

/-- The clamped `baseRequest` (plus its optional `tools`). -/
structure ThirdPartyBase where
  temperature : Rat
  max_tokens : Rat
  tools : Option (List VertexTools)
  deriving Repr

/-- The provider-specific payload shapes of `buildThirdPartyRequest`. -/
inductive ThirdPartyRequest where
  | anthropic (anthropic_version : String) (messages : List Message)
      (base : ThirdPartyBase) (tool_choice : Option Json) (stream : Bool)
  | meta (inputs : String) (temperature max_new_tokens : Rat)
      (do_sample : Bool) (top_p : Rat)
  | mistral (messages : List Message) (temperature max_tokens : Rat) (stream : Bool)
  | cohere (message : Json) (chat_history : List (String × Option Json))
      (temperature max_tokens : Rat) (stream : Bool)
  | generic (messages : List Message) (base : ThirdPartyBase) (stream : Bool)
  deriving Repr

/-- Embeds `messages.map(msg => msg.content).join('\n')` (Array.join renders
`null`/`undefined` as the empty string). -/
def metaInputs (messages : List Message) : String :=
  String.intercalate "\n" (messages.map fun m =>
    match m.content with
    | some .null => ""
    | some j => jsToString j
    | none => "")

/-- Embeds `buildThirdPartyRequest` from `src/services/vertexService.js`. -/
def buildThirdPartyRequest (provider : String) (messages : List Message)
    (temperature max_tokens : Rat) (stream : Bool) (tools : List ToolDecl)
    (tool_choice : Option Json) : ThirdPartyRequest :=
  let baseTools : Option (List VertexTools) :=
    if tools.length > 0 then
      match convertOpenAIToolsToVertex tools with
      | some vt => some [vt]
      | none => none
    else none
  let base : ThirdPartyBase := ⟨max 0 (min 1 temperature), max 1 (min 4096 max_tokens), baseTools⟩
  if provider = "anthropic" then
    .anthropic "bedrock-2023-05-31" messages base tool_choice stream
  else if provider = "meta" then
    .meta (metaInputs messages) base.temperature base.max_tokens true (9 / 10)
  else if provider = "mistral" then
    .mistral messages base.temperature base.max_tokens stream
  else if provider = "cohere" then
    .cohere
      (match messages.getLast? with
        | some m =>
          (match m.content with
            | some j => if jsTruthy j then j else .str ""
            | none => .str "")
        | none => .str "")
      (messages.dropLast.map fun m =>
        (if m.role == "assistant" then "CHATBOT" else "USER", m.content))
      base.temperature base.max_tokens stream
  else .generic messages base stream

/-- The `temperature` carried by a built third-party request. -/
def tpTemperature : ThirdPartyRequest → Rat
  | .anthropic _ _ b _ _ => b.temperature
  | .meta _ t _ _ _ => t
  | .mistral _ t _ _ => t
  | .cohere _ _ t _ _ => t
  | .generic _ b _ => b.temperature

/-- The token limit carried by a built third-party request
(`max_new_tokens` for meta, `max_tokens` elsewhere). -/
def tpMaxTokens : ThirdPartyRequest → Rat
  | .anthropic _ _ b _ _ => b.max_tokens
  | .meta _ _ m _ _ => m
  | .mistral _ _ m _ => m
  | .cohere _ _ _ m _ => m
  | .generic _ b _ => b.max_tokens

/-! ### Model registry (`src/config/models.js`) -/

def googleMapping : List (String × String) :=
  [("gemini-2.5-flash", "gemini-2.0-flash-exp"),
   ("gemini-2.5-pro", "gemini-1.5-pro"),
   ("gemini-2.0-flash", "gemini-2.0-flash-exp"),
   ("gemini-2.0-pro", "gemini-1.5-pro"),
   ("gemini-1.5-flash", "gemini-1.5-flash"),
   ("gemini-1.5-pro", "gemini-1.5-pro"),
   ("gemini-pro", "gemini-1.5-pro"),
   ("text-bison", "text-bison"),
   ("code-bison", "code-bison")]

def anthropicMapping : List (String × String) :=
  [("claude-3-5-sonnet-20241022", "claude-3-5-sonnet@20241022"),
   ("claude-3-haiku-20240307", "claude-3-haiku@20240307"),
   ("claude-3-sonnet-20240229", "claude-3-sonnet@20240229"),
   ("claude-3-opus-20240229", "claude-3-opus@20240229")]

def metaMapping : List (String × String) :=
  [("llama-3-1-405b-instruct", "llama3-405b-instruct-maas"),
   ("llama-3-1-70b-instruct", "llama3-70b-instruct-maas"),
   ("llama-3-1-8b-instruct", "llama3-8b-instruct-maas"),
   ("llama-2-70b-chat", "llama2-70b-chat-maas"),
   ("llama-2-13b-chat", "llama2-13b-chat-maas"),
   ("llama-2-7b-chat", "llama2-7b-chat-maas")]

def mistralMapping : List (String × String) :=
  [("mistral-large-2407", "mistral-large@2407"),
   ("mistral-nemo-2407", "mistral-nemo@2407"),
   ("codestral-2405", "codestral@2405"),
   ("mixtral-8x7b-instruct", "mixtral-8x7b-instruct-v01")]

def cohereMapping : List (String × String) :=
  [("command-r-plus", "command-r-plus@20240515"),
   ("command-r", "command-r@20240515"),
   ("embed-english-v3", "embed-english-v3.0"),
   ("embed-multilingual-v3", "embed-multilingual-v3.0")]

/-- Embeds `modelMappings[provider]`, `undefined` for other keys. -/
def modelMappingsFor (provider : String) : Option (List (String × String)) :=
  if provider = "google" then some googleMapping
  else if provider = "anthropic" then some anthropicMapping
  else if provider = "meta" then some metaMapping
  else if provider = "mistral" then some mistralMapping
  else if provider = "cohere" then some cohereMapping
  else none

/-- Embeds `getModelProvider` (all mapped backend ids are non-empty strings, so
JS truthiness of the lookup coincides with `isSome`). -/
def getModelProvider (modelId : String) : Option String :=
  if (googleMapping.lookup modelId).isSome then some "google"
  else if (anthropicMapping.lookup modelId).isSome then some "anthropic"
  else if (metaMapping.lookup modelId).isSome then some "meta"
  else if (mistralMapping.lookup modelId).isSome then some "mistral"
  else if (cohereMapping.lookup modelId).isSome then some "cohere"
  else none

/-- Embeds `getActualModelName(modelId, provider)`:
`modelMappings[provider]?.[modelId] || modelId`. -/
def getActualModelName (modelId : String) (provider : Option String) : String :=
  match provider with
  | none => modelId
  | some p =>
    match modelMappingsFor p with
    | none => modelId
    | some table =>
      match table.lookup modelId with
      | some backend => if backend ≠ "" then backend else modelId
      | none => modelId

def contextLengths : List (String × Nat) :=
  [("gemini-2.5-flash", 1000000), ("gemini-2.5-pro", 120000),
   ("gemini-2.0-flash", 1000000), ("gemini-2.0-pro", 120000),
   ("gemini-1.5-flash", 1000000), ("gemini-1.5-pro", 2000000),
   ("gemini-pro", 32000), ("text-bison", 8192), ("code-bison", 8192),
   ("claude-3-5-sonnet-20241022", 200000), ("claude-3-haiku-20240307", 200000),
   ("claude-3-sonnet-20240229", 200000), ("claude-3-opus-20240229", 200000),
   ("llama-3-1-405b-instruct", 128000), ("llama-3-1-70b-instruct", 128000),
   ("llama-3-1-8b-instruct", 128000), ("llama-2-70b-chat", 4096),
   ("llama-2-13b-chat", 4096), ("llama-2-7b-chat", 4096),
   ("mistral-large-2407", 128000), ("mistral-nemo-2407", 128000),
   ("codestral-2405", 32000), ("mixtral-8x7b-instruct", 32000),
   ("command-r-plus", 128000), ("command-r", 128000),
   ("embed-english-v3", 512), ("embed-multilingual-v3", 512)]

/-- Embeds `getContextLength`: `contextLengths[modelId] || 8192` (all listed
lengths are non-zero, so truthiness coincides with presence). -/
def getContextLength (modelId : String) : Nat :=
  (contextLengths.lookup modelId).getD 8192

/-- All public model ids that occur in any provider's mapping table. -/
def allMappedModelIds : List String :=
  (googleMapping ++ anthropicMapping ++ metaMapping ++ mistralMapping ++ cohereMapping).map
    Prod.fst

/-! ### Streaming adapter (`src/routes/chatRoutes.js`, streaming loop) -/

/-- A chunk of the upstream native stream, in the three shapes the route
handles: a `text()` accessor function, a candidates array, or a plain
`text` property. -/
inductive StreamChunk where
  | textFn (s : String)
  | withCandidates (cands : List GCandidate)
  | textProp (s : String)
  | other
  deriving Repr, Inhabited

/-- The text the loop extracts from a chunk. For the candidates shape only
`candidates[0].content.parts[0]` is consulted, and `part.text || ""`;
a truthiness-failing `chunk.text` property contributes `""`. -/
def chunkText : StreamChunk → String
  | .textFn s => s
  | .withCandidates cands =>
    match cands with
    | [] => ""
    | cand :: _ =>
      match cand.parts with
      | some (part :: _) => (part.text.getD "")
      | _ => ""
  | .textProp s => if s ≠ "" then s else ""
  | .other => ""

/-- The tool calls the loop extracts from a chunk (only the candidates
shape can carry one, and only in its first part). -/
def chunkToolCalls (timestamp : Nat) (suffix : String) : StreamChunk → Option (List ToolCallOut)
  | .withCandidates (cand :: _) =>
    (match cand.parts with
      | some (part :: _) =>
        (match part.functionCall with
          | some fc =>
            some [⟨"call_" ++ toString timestamp ++ "_" ++ suffix, "function", fc.name,
              jsonStringify (jsArgsOrEmptyObj fc.args)⟩]
          | none => none)
      | _ => none)
  | _ => none

/-- One emitted server-sent-event frame. -/
inductive Frame where
  | toolCallsDelta (tcs : List ToolCallOut)
  | contentDelta (s : String)
  | finalFrame (finish_reason : String)
  | doneLine
  deriving Repr, Inhabited, DecidableEq

/-- The word-by-word re-emission of one chunk text:
`words[i] + (i < words.length - 1 ? ' ' : '')`. -/
def emitWords : List String → List String
  | [] => []
  | [w] => [w]
  | w :: ws => (w ++ " ") :: emitWords ws

/-- The frames written for one upstream chunk: a `tool_calls` delta if the
chunk carried a function call, then (for truthy text) one content delta
per space-split word. -/
def chunkFrames (timestamp : Nat) (suffix : String) (chunk : StreamChunk) : List Frame :=
  (match chunkToolCalls timestamp suffix chunk with
    | some tcs => [Frame.toolCallsDelta tcs]
    | none => []) ++
  (let text := chunkText chunk
   if text ≠ "" then (emitWords (jsSplit text ' ')).map Frame.contentDelta else [])

/-- Whether a chunk yields a `tool_calls` delta (the loop's `toolCalls`
accumulator is non-empty at the end iff some chunk did). -/
def chunkHasToolCalls (chunk : StreamChunk) : Bool :=
  (chunkToolCalls 0 "" chunk).isSome

/-- The full frame sequence of the streaming loop: per-chunk frames, the
final empty-delta frame with the computed `finish_reason`, then the
literal `data: [DONE]` terminator. -/
def streamFrames (timestamp : Nat) (suffix : String) (chunks : List StreamChunk) :
    List Frame :=
  (chunks.map (chunkFrames timestamp suffix)).flatten ++
    [Frame.finalFrame (if chunks.any chunkHasToolCalls then "tool_calls" else "stop"),
     Frame.doneLine]

/-- The content carried by a frame (empty for non-content frames). -/
def frameContent : Frame → String
  | .contentDelta s => s
  | _ => ""

/-- Concatenation of a list of strings (the order-preserving "what the
client reassembles" operation). -/
def strConcat (l : List String) : String := l.foldr (· ++ ·) ""

/-! ### `cleanOrphanedToolMessages` -/

/-- Modelled from the spec: `cleanOrphanedToolMessages` is named by the
specification (§4.2) but absent from the repository's source; per the
spec it collects the set of all `tool_calls[].id` emitted by any assistant
message and drops every `tool` message whose `tool_call_id` is not in that
set, passing all non-tool messages through. -/
def assistantToolCallIds (messages : List Message) : List String :=
  messages.flatMap fun m =>
    if m.role == "assistant" then (m.tool_calls.getD []).filterMap ToolCallEntry.id
    else []

/-- Modelled from the spec: the filtering pass of
`cleanOrphanedToolMessages`. -/
def keepMessage (validIds : List String) (m : Message) : Bool :=
  m.role != "tool" ||
    (match m.tool_call_id with
      | some id => validIds.contains id
      | none => false)

/-- Modelled from the spec: `cleanOrphanedToolMessages(messages)`. -/
def cleanOrphanedToolMessages (messages : List Message) : List Message :=
  messages.filter (keepMessage (assistantToolCallIds messages))

/-! ## Theorems -/

/-! ### C9 — registry accessors -/

theorem lookup_eq_none_of_not_mem {β : Type} (l : List (String × β)) (k : String)
    (h : k ∉ l.map Prod.fst) : l.lookup k = none := by
  induction l with
  | nil => rfl
  | cons p rest ih =>
    simp only [List.map_cons, List.mem_cons, not_or] at h
    obtain ⟨h1, h2⟩ := h
    have hb : (k == p.1) = false := beq_eq_false_iff_ne.mpr h1
    simp [List.lookup, hb, ih h2]

theorem getModelProvider_eq_none {modelId : String} (h : modelId ∉ allMappedModelIds) :
    getModelProvider modelId = none := by
  simp only [allMappedModelIds, List.map_append, List.mem_append, not_or] at h
  obtain ⟨⟨⟨⟨hg, ha⟩, hm⟩, hmi⟩, hc⟩ := h
  simp [getModelProvider, lookup_eq_none_of_not_mem _ _ hg,
    lookup_eq_none_of_not_mem _ _ ha, lookup_eq_none_of_not_mem _ _ hm,
    lookup_eq_none_of_not_mem _ _ hmi, lookup_eq_none_of_not_mem _ _ hc]

/-- C9: the registry accessors are total: a mapped id resolves to a
provider, an unknown id resolves to `null`; `getActualModelName` falls back
to the public id whenever the provider is `null` or the id is unmapped, and
returns the mapped backend id otherwise; the context length of an unknown
id defaults to 8192. -/
theorem C9_registry_defaults :
    (∀ modelId ∈ allMappedModelIds, (getModelProvider modelId).isSome) ∧
    (∀ modelId : String, modelId ∉ allMappedModelIds → getModelProvider modelId = none) ∧
    (∀ modelId : String, getActualModelName modelId none = modelId) ∧
    (∀ modelId : String, ∀ p : String, ∀ table,
      modelMappingsFor p = some table → table.lookup modelId = none →
      getActualModelName modelId (some p) = modelId) ∧
    (∀ p ∈ ["google", "anthropic", "meta", "mistral", "cohere"],
      ∀ pr ∈ (modelMappingsFor p).getD [], getActualModelName pr.1 (some p) = pr.2) ∧
    (∀ modelId : String, modelId ∉ contextLengths.map Prod.fst →
      getContextLength modelId = 8192) := by
  refine ⟨by decide, fun _ h => getModelProvider_eq_none h, fun _ => rfl, ?_, by decide, ?_⟩
  · intro modelId p table ht hl
    simp [getActualModelName, ht, hl]
  · intro modelId h
    simp [getContextLength, lookup_eq_none_of_not_mem _ _ h]

/-- Witness for C9: a concrete unknown id yields `null`/defaults. -/
theorem C9_registry_defaults_witness :
    getModelProvider "no-such-model" = none ∧
    getActualModelName "no-such-model" none = "no-such-model" ∧
    getContextLength "no-such-model" = 8192 :=
  ⟨C9_registry_defaults.2.1 "no-such-model" (by decide),
   C9_registry_defaults.2.2.1 "no-such-model",
   C9_registry_defaults.2.2.2.2.2 "no-such-model" (by decide)⟩

/-! ### C7 — sampling-parameter clamping -/

/-- C7: every built request clamps its sampling parameters to the nearest
bound: `[0,2]`/`[1,8192]`/`[0,1]`/`[1,40]` for the native
`generationConfig`, `[0,1]`/`[1,4096]` for every third-party payload (the
only `top_p` a third-party payload carries is meta's fixed `0.9`, inside
`[0,1]`); in particular `temperature=5` normalizes to 2 natively and to 1
for a third-party provider, and `top_k=0` normalizes to 1. -/
theorem C7_sampling_clamps :
    (∀ t m p k : Rat,
      (googleGenerationConfig t m p k).temperature = max 0 (min 2 t) ∧
      (googleGenerationConfig t m p k).maxOutputTokens = max 1 (min 8192 m) ∧
      (googleGenerationConfig t m p k).topP = max 0 (min 1 p) ∧
      (googleGenerationConfig t m p k).topK = max 1 (min 40 k) ∧
      0 ≤ (googleGenerationConfig t m p k).temperature ∧
      (googleGenerationConfig t m p k).temperature ≤ 2 ∧
      1 ≤ (googleGenerationConfig t m p k).maxOutputTokens ∧
      (googleGenerationConfig t m p k).maxOutputTokens ≤ 8192 ∧
      0 ≤ (googleGenerationConfig t m p k).topP ∧
      (googleGenerationConfig t m p k).topP ≤ 1 ∧
      1 ≤ (googleGenerationConfig t m p k).topK ∧
      (googleGenerationConfig t m p k).topK ≤ 40) ∧
    (∀ (provider : String) (messages : List Message) (t m : Rat) (stream : Bool)
        (tools : List ToolDecl) (tc : Option Json),
      tpTemperature (buildThirdPartyRequest provider messages t m stream tools tc) =
        max 0 (min 1 t) ∧
      tpMaxTokens (buildThirdPartyRequest provider messages t m stream tools tc) =
        max 1 (min 4096 m) ∧
      0 ≤ tpTemperature (buildThirdPartyRequest provider messages t m stream tools tc) ∧
      tpTemperature (buildThirdPartyRequest provider messages t m stream tools tc) ≤ 1 ∧
      1 ≤ tpMaxTokens (buildThirdPartyRequest provider messages t m stream tools tc) ∧
      tpMaxTokens (buildThirdPartyRequest provider messages t m stream tools tc) ≤ 4096) ∧
    (googleGenerationConfig 5 2048 1 40).temperature = 2 ∧
    tpTemperature (buildThirdPartyRequest "anthropic" [] 5 2048 false [] none) = 1 ∧
    (googleGenerationConfig (7 / 10) 2048 1 0).topK = 1 := by
  refine ⟨?_, ?_, by norm_num [googleGenerationConfig], ?_, by norm_num [googleGenerationConfig]⟩
  · intro t m p k
    refine ⟨rfl, rfl, rfl, rfl, le_max_left 0 _, max_le (by norm_num) (min_le_left 2 t),
      le_max_left 1 _, max_le (by norm_num) (min_le_left 8192 m),
      le_max_left 0 _, max_le (by norm_num) (min_le_left 1 p),
      le_max_left 1 _, max_le (by norm_num) (min_le_left 40 k)⟩
  · intro provider messages t m stream tools tc
    have ht : tpTemperature (buildThirdPartyRequest provider messages t m stream tools tc) =
        max 0 (min 1 t) := by
      unfold buildThirdPartyRequest
      split_ifs <;> simp [tpTemperature]
    have hm : tpMaxTokens (buildThirdPartyRequest provider messages t m stream tools tc) =
        max 1 (min 4096 m) := by
      unfold buildThirdPartyRequest
      split_ifs <;> simp [tpMaxTokens]
    exact ⟨ht, hm, ht ▸ le_max_left 0 _, ht ▸ max_le (by norm_num) (min_le_left 1 t),
      hm ▸ le_max_left 1 _, hm ▸ max_le (by norm_num) (min_le_left 4096 m)⟩
  · show tpTemperature (buildThirdPartyRequest "anthropic" [] 5 2048 false [] none) = 1
    norm_num [buildThirdPartyRequest, tpTemperature]

/-! ### C6 — `validateMessages` -/

deriving instance DecidableEq for Except

theorem except_error_bind {α β : Type} (e : String) (f : α → Except String β) :
    (Except.error e >>= f) = Except.error e := rfl

theorem forM_except_fails_of_mem {α : Type} (f : α → Except String Unit) {l : List α}
    {x : α} (hx : x ∈ l) (hf : f x ≠ .ok ()) : l.forM f ≠ .ok () := by
  induction l with
  | nil => cases hx
  | cons a rest ih =>
    rcases List.mem_cons.mp hx with rfl | hx2
    · cases hv : f x with
      | ok u => cases u; exact absurd hv hf
      | error e => simp [List.forM_cons, hv, except_error_bind]
    · cases hv : f a with
      | ok u => cases u; simpa [List.forM_cons, hv] using ih hx2
      | error e => simp [List.forM_cons, hv, except_error_bind]

theorem validateMessage_fails_of_bad_role {m : Message} (h : m.role ∉ validRoles) :
    validateMessage m ≠ .ok () := by
  unfold validateMessage
  by_cases h0 : m.role = ""
  · simp [h0]
  · simp [h0, h]

theorem validateMessage_fails_of_bad_tool {m : Message} (hrole : m.role = "tool")
    (h : jsTruthyOpt m.content = false ∨ truthyStrOpt m.tool_call_id = false) :
    validateMessage m ≠ .ok () := by
  unfold validateMessage
  have h0 : ¬m.role = "" := by rw [hrole]; decide
  have hmem : ("tool" : String) ∈ validRoles := by decide
  rcases h with h | h
  · simp [h0, hrole, hmem, h]
  · cases hcontent : jsTruthyOpt m.content with
    | false => simp [h0, hrole, hmem, hcontent]
    | true => simp [h0, hrole, hmem, hcontent, h]

theorem validateToolCall_fails {tc : ToolCallEntry}
    (h : truthyStrOpt tc.id = false ∨ tc.type ≠ some "function" ∨
      truthyStrOpt (tc.function.bind FuncRef.name) = false) :
    validateToolCall tc ≠ .ok () := by
  cases hid : truthyStrOpt tc.id with
  | false => simp [validateToolCall, hid]
  | true =>
    cases hty : truthyStrOpt tc.type with
    | false => simp [validateToolCall, hid, hty]
    | true =>
      cases hfn : tc.function with
      | none => simp [validateToolCall, hid, hty, hfn]
      | some f =>
        rcases h with h | h | h
        · rw [hid] at h; cases h
        · simp [validateToolCall, hid, hty, hfn, h]
        · by_cases h2 : tc.type = some "function"
          · rw [hfn] at h
            simp only [Option.some_bind] at h
            simp [validateToolCall, hid, hty, hfn, h2, h,
              (by decide : truthyStrOpt (some "function") = true)]
          · simp [validateToolCall, hid, hty, hfn, h2]

theorem validateMessage_fails_of_bad_tool_calls {m : Message} {tcs : List ToolCallEntry}
    {tc : ToolCallEntry} (hrole : m.role = "assistant") (htcs : m.tool_calls = some tcs)
    (htc : tc ∈ tcs)
    (h : truthyStrOpt tc.id = false ∨ tc.type ≠ some "function" ∨
      truthyStrOpt (tc.function.bind FuncRef.name) = false) :
    validateMessage m ≠ .ok () := by
  unfold validateMessage
  have h0 : ¬m.role = "" := by rw [hrole]; decide
  have hc : validRoles.contains m.role = true := by rw [hrole]; decide
  have hnt : ¬m.role = "tool" := by rw [hrole]; decide
  have hsome : m.tool_calls.isSome := by rw [htcs]; rfl
  simp only [h0, hc, hnt, hrole, hsome, htcs, if_false, if_true, and_true, true_and,
    Bool.not_true, if_neg, Option.getD_some, and_self, ite_true, ite_false]
  intro hforM
  exact forM_except_fails_of_mem validateToolCall htc (validateToolCall_fails h)
    (by simpa [h0, hc, hnt, hrole, hsome, htcs] using hforM)

theorem validateMessages_fails_of_mem {messages : List Message} {m : Message}
    (hm : m ∈ messages) (hf : validateMessage m ≠ .ok ()) :
    validateMessages messages ≠ .ok () := by
  unfold validateMessages
  have : ¬messages.isEmpty := by
    cases messages with
    | nil => cases hm
    | cons a l => simp
  simp only [this, if_false, ite_false, Bool.false_eq_true]
  exact forM_except_fails_of_mem validateMessage hm hf

/-- C6: `validateMessages` throws for an empty array, for any message with
a role outside the four allowed roles, for a tool message whose content or
`tool_call_id` is missing/empty, and for an assistant message one of whose
`tool_calls` lacks an id, the type `"function"`, or a function name; it
accepts one system message plus one user message with string content. -/
theorem C6_validateMessages (messages : List Message) :
    (validateMessages [] ≠ .ok ()) ∧
    (∀ m ∈ messages, m.role ∉ validRoles → validateMessages messages ≠ .ok ()) ∧
    (∀ m ∈ messages, m.role = "tool" →
      jsTruthyOpt m.content = false ∨ truthyStrOpt m.tool_call_id = false →
      validateMessages messages ≠ .ok ()) ∧
    (∀ m ∈ messages, m.role = "assistant" → ∀ tcs, m.tool_calls = some tcs →
      ∀ tc ∈ tcs,
        truthyStrOpt tc.id = false ∨ tc.type ≠ some "function" ∨
          truthyStrOpt (tc.function.bind FuncRef.name) = false →
        validateMessages messages ≠ .ok ()) ∧
    validateMessages
      [⟨"system", some (.str "You are a helpful assistant."), none, none⟩,
       ⟨"user", some (.str "Hello"), none, none⟩] = .ok () := by
  refine ⟨by decide, ?_, ?_, ?_, by decide⟩
  · intro m hm hrole
    exact validateMessages_fails_of_mem hm (validateMessage_fails_of_bad_role hrole)
  · intro m hm hrole hbad
    exact validateMessages_fails_of_mem hm (validateMessage_fails_of_bad_tool hrole hbad)
  · intro m hm hrole tcs htcs tc htc hbad
    exact validateMessages_fails_of_mem hm
      (validateMessage_fails_of_bad_tool_calls hrole htcs htc hbad)

/-- Witness for C6: concrete rejected conversations of each kind. -/
theorem C6_validateMessages_witness :
    validateMessages [⟨"bogus", some (.str "x"), none, none⟩] ≠ .ok () ∧
    validateMessages [⟨"tool", some (.str "output"), none, none⟩] ≠ .ok () ∧
    validateMessages
      [⟨"assistant", none, none, some [⟨some "id1", some "function", some ⟨none, none⟩⟩]⟩] ≠
      .ok () :=
  ⟨(C6_validateMessages _).2.1 _ (List.mem_singleton.mpr rfl) (by decide),
   (C6_validateMessages _).2.2.1 _ (List.mem_singleton.mpr rfl) rfl (by decide),
   (C6_validateMessages _).2.2.2.1 _ (List.mem_singleton.mpr rfl) rfl _ rfl _
     (List.mem_singleton.mpr rfl) (by decide)⟩

/-! ### C5 — `extractMessageContent` -/

/-- C5 counterexample: an object content with a present but empty `.text`
field is JSON-serialized rather than returned, so the result is not the
`.text` field. -/
theorem C5_counterexample :
    extractMessageContent ⟨"user", some (.obj [("text", .str "")]), none, none⟩ =
      .str "\x7b\"text\":\"\"\x7d" ∧
    Json.str "\x7b\"text\":\"\"\x7d" ≠ Json.str "" :=
  ⟨rfl, by simp⟩

/-- C5 (amended): a string content is returned unchanged; for a non-array,
non-null object content the `.text` field is returned when present and
truthy (non-empty), else the `.content` field when present and truthy,
else the JSON serialization of the whole object. -/
theorem C5_extractContent (m : Message) :
    (∀ s, m.content = some (.str s) → extractMessageContent m = .str s) ∧
    (∀ fields, m.content = some (.obj fields) →
      ((∀ t, fields.lookup "text" = some t → jsTruthy t = true →
          extractMessageContent m = t) ∧
       (truthyField fields "text" = none →
          ∀ cv, fields.lookup "content" = some cv → jsTruthy cv = true →
            extractMessageContent m = cv) ∧
       (truthyField fields "text" = none → truthyField fields "content" = none →
          extractMessageContent m = .str (jsonStringify (.obj fields))))) := by
  constructor
  · intro s hs
    simp [extractMessageContent, hs]
  · intro fields hf
    refine ⟨?_, ?_, ?_⟩
    · intro t ht htr
      simp [extractMessageContent, hf, truthyField, ht, htr]
    · intro hnone cv hcv htr
      have h2 : truthyField fields "content" = some cv := by simp [truthyField, hcv, htr]
      simp [extractMessageContent, hf, hnone, h2]
    · intro h1 h2
      simp [extractMessageContent, hf, h1, h2]

/-- Witness for C5: a string content round-trips; a truthy `.text` field is
preferred over serialization. -/
theorem C5_extractContent_witness :
    extractMessageContent ⟨"user", some (.str "hello"), none, none⟩ = .str "hello" ∧
    extractMessageContent ⟨"user", some (.obj [("text", .str "hi")]), none, none⟩ =
      .str "hi" :=
  ⟨(C5_extractContent _).1 "hello" rfl,
   ((C5_extractContent _).2 [("text", .str "hi")] rfl).1 (.str "hi") rfl rfl⟩

/-! ### C4 — `cleanOrphanedToolMessages` -/

theorem assistantToolCallIds_cons (m : Message) (rest : List Message) :
    assistantToolCallIds (m :: rest) =
      (if m.role == "assistant" then (m.tool_calls.getD []).filterMap ToolCallEntry.id
       else []) ++ assistantToolCallIds rest := by
  simp [assistantToolCallIds]

theorem assistantToolCallIds_filter (ids : List String) (l : List Message) :
    assistantToolCallIds (l.filter (keepMessage ids)) = assistantToolCallIds l := by
  induction l with
  | nil => rfl
  | cons m rest ih =>
    by_cases hk : keepMessage ids m
    · rw [List.filter_cons, if_pos hk, assistantToolCallIds_cons,
        assistantToolCallIds_cons, ih]
    · have hrole : m.role = "tool" := by
        by_contra hr
        exact hk (by simp [keepMessage, hr])
      rw [List.filter_cons, if_neg hk, assistantToolCallIds_cons, ih]
      simp [hrole]

theorem filter_nonTool_clean (ids : List String) (l : List Message) :
    (l.filter (keepMessage ids)).filter (fun m => m.role != "tool") =
      l.filter (fun m => m.role != "tool") := by
  induction l with
  | nil => rfl
  | cons m rest ih =>
    by_cases ht : m.role = "tool"
    · have hq : (m.role != "tool") = false := by simp [ht]
      by_cases hk : keepMessage ids m
      · simp [List.filter_cons, hk, hq, ih]
      · simp [List.filter_cons, hk, hq, ih]
    · have hq : (m.role != "tool") = true := by simp [ht]
      have hk : keepMessage ids m = true := by simp [keepMessage, hq]
      simp [List.filter_cons, hk, hq, ih]

/-- C4: `cleanOrphanedToolMessages` returns a sublist that keeps every
non-tool message (in order, unchanged), keeps a tool message exactly when
its `tool_call_id` is among the assistant-emitted `tool_calls[].id`s, and
is idempotent. -/
theorem C4_cleanOrphanedToolMessages (messages : List Message) :
    (cleanOrphanedToolMessages messages).Sublist messages ∧
    ((cleanOrphanedToolMessages messages).filter (fun m => m.role != "tool") =
      messages.filter (fun m => m.role != "tool")) ∧
    (∀ m ∈ messages, m.role = "tool" →
      (m ∈ cleanOrphanedToolMessages messages ↔
        ∃ id, m.tool_call_id = some id ∧ id ∈ assistantToolCallIds messages)) ∧
    cleanOrphanedToolMessages (cleanOrphanedToolMessages messages) =
      cleanOrphanedToolMessages messages := by
  refine ⟨List.filter_sublist _, filter_nonTool_clean _ _, ?_, ?_⟩
  · intro m hm hrole
    have hkeep : keepMessage (assistantToolCallIds messages) m = true ↔
        ∃ id, m.tool_call_id = some id ∧ id ∈ assistantToolCallIds messages := by
      cases hid : m.tool_call_id with
      | none => simp [keepMessage, hrole, hid]
      | some id => simp [keepMessage, hrole, hid]
    rw [cleanOrphanedToolMessages, List.mem_filter]
    simp [hm, hkeep]
  · rw [cleanOrphanedToolMessages, cleanOrphanedToolMessages,
      assistantToolCallIds_filter]
    simp

/-- A concrete conversation with one matched and one orphaned tool
message. -/
def c4Messages : List Message :=
  [⟨"assistant", none, none,
     some [⟨some "call_9", some "function", some ⟨some "builtin_read_file", none⟩⟩]⟩,
   ⟨"tool", some (.str "ok"), some "call_9", none⟩,
   ⟨"tool", some (.str "stale"), some "call_0", none⟩]

/-- Witness for C4: the matched tool message survives cleaning of the
concrete conversation, and cleaning it twice changes nothing more. -/
theorem C4_cleanOrphanedToolMessages_witness :
    (⟨"tool", some (.str "ok"), some "call_9", none⟩ : Message) ∈
      cleanOrphanedToolMessages c4Messages ∧
    cleanOrphanedToolMessages (cleanOrphanedToolMessages c4Messages) =
      cleanOrphanedToolMessages c4Messages :=
  ⟨((C4_cleanOrphanedToolMessages c4Messages).2.2.1
      ⟨"tool", some (.str "ok"), some "call_9", none⟩
      (List.mem_cons_of_mem _ (List.mem_cons_self _ _)) rfl).mpr
      ⟨"call_9", rfl, by decide⟩,
    (C4_cleanOrphanedToolMessages c4Messages).2.2.2⟩

/-! ### C1 — task continuation heuristic -/

/-- Splitting on `'_'` removes every underscore, so no piece of the split
can start with `"builtin_"`: the extractor always answers `"unknown"`. -/
theorem extractToolNameFromResult_unknown (toolResult : Message) :
    extractToolNameFromResult toolResult = "unknown" := by
  cases hid : toolResult.tool_call_id with
  | none => simp [extractToolNameFromResult, hid]
  | some id =>
    have hfind : (jsSplit id '_').find? (fun part => jsStartsWith part "builtin_") = none := by
      rw [List.find?_eq_none]
      intro part hpart
      simp only [jsSplit, List.mem_map] at hpart
      obtain ⟨w, hw, rfl⟩ := hpart
      simp only [jsStartsWith, Bool.not_eq_true]
      rw [Bool.eq_false_iff]
      intro hpre
      have hpre2 : "builtin_".data <+: w := by
        rwa [ List.isPrefixOf_iff_prefix] at hpre
      have hu : '_' ∈ w := hpre2.subset (by decide)
      exact splitOnChar_not_mem '_' id.data w hw hu
    simp [extractToolNameFromResult, hid, hfind]

theorem analyzeOneToolResult_id (req : String) (tools : List ToolDecl)
    (analysis : TaskAnalysis) (r : Message) :
    analyzeOneToolResult req tools analysis r = analysis := by
  unfold analyzeOneToolResult
  rw [extractToolNameFromResult_unknown]
  simp

theorem foldl_analyzeOneToolResult (req : String) (tools : List ToolDecl)
    (l : List Message) : ∀ init, l.foldl (analyzeOneToolResult req tools) init = init := by
  induction l with
  | nil => intro init; rfl
  | cons r rest ih =>
    intro init
    rw [List.foldl_cons, analyzeOneToolResult_id]
    exact ih init

theorem analyzeTaskCompleteness_trivial (messages toolResults : List Message)
    (tools : List ToolDecl) :
    analyzeTaskCompleteness messages toolResults tools =
      ⟨false, "unknown", calculateCompletionLevel "unknown" toolResults, []⟩ := by
  unfold analyzeTaskCompleteness
  dsimp only
  rw [foldl_analyzeOneToolResult]

/-- The spec's example conversation:
`[user:"fix the bug in app.js", assistant+tool_call(read_file), tool result]`. -/
def c1Messages : List Message :=
  [⟨"user", some (.str "fix the bug in app.js"), none, none⟩,
   ⟨"assistant", none, none,
     some [⟨some "call_1_builtin_read_file", some "function",
       some ⟨some "builtin_read_file", some "\x7b\"filepath\": \"app.js\"\x7d"⟩⟩]⟩,
   ⟨"tool", some (.str "the file content"), some "call_1_builtin_read_file", none⟩]

def c1Tools : List ToolDecl :=
  [⟨"function", ⟨"builtin_read_file", none, none⟩⟩,
   ⟨"function", ⟨"builtin_edit_existing_file", none, none⟩⟩]

/-- C1 (code bug): `extractToolNameFromResult` splits the `tool_call_id`
on `'_'` and then looks for a piece starting with `"builtin_"`, which the
split makes impossible, so `analyzeTaskContinuation` returns
`shouldContinue = false` for every conversation — including the spec's
read-file debugging conversation, which yields `taskType = "unknown"` and
empty `nextSteps` instead of the documented
`shouldContinue = true` / `"debug_fix"` / edit-tool suggestion. -/
theorem C1_continuation_never_fires :
    (∀ (messages : List Message) (tools : List ToolDecl),
      (analyzeTaskContinuation messages tools).shouldContinue = false) ∧
    (analyzeTaskContinuation c1Messages c1Tools).shouldContinue = false ∧
    (analyzeTaskContinuation c1Messages c1Tools).taskState.map TaskState.taskType =
      some "unknown" ∧
    (analyzeTaskContinuation c1Messages c1Tools).taskState.map TaskState.nextSteps =
      some [] := by
  refine ⟨?_, rfl, rfl, rfl⟩
  intro messages tools
  unfold analyzeTaskContinuation
  by_cases hlen : messages.length < 2
  · simp [hlen]
  · simp only [hlen, if_false]
    cases hidx : findLastAssistantToolCallIdx messages with
    | none => rfl
    | some i =>
      dsimp only
      split
      · rfl
      · simp [analyzeTaskCompleteness_trivial]

/-! ### C3 — non-streaming finish-reason normalisation -/

theorem get?_of_mem_enumFrom {α : Type} :
    ∀ (l : List α) (n : Nat) (p : Nat × α), p ∈ l.enumFrom n →
      n ≤ p.1 ∧ l.get? (p.1 - n) = some p.2 := by
  intro l
  induction l with
  | nil => intro n p hp; cases hp
  | cons a rest ih =>
    intro n p hp
    rcases List.mem_cons.mp hp with rfl | hp2
    · simp
    · obtain ⟨h1, h2⟩ := ih (n + 1) p hp2
      refine ⟨by omega, ?_⟩
      have : p.1 - n = (p.1 - (n + 1)) + 1 := by omega
      rw [this]
      simpa using h2

theorem get?_of_mem_enum {α : Type} {l : List α} {p : Nat × α} (hp : p ∈ l.enum) :
    l.get? p.1 = some p.2 := by
  have := get?_of_mem_enumFrom l 0 p hp
  simpa using this.2

/-- The candidate exhibiting the divergence: a function-call part together
with a `MAX_TOKENS` finish signal. -/
def c3Candidate : GCandidate :=
  ⟨some [⟨none, some ⟨"builtin_read_file", none⟩⟩], some "MAX_TOKENS"⟩

/-- C3 counterexample: with a function-call part present and backend
finish signal `MAX_TOKENS`, the normalized `finish_reason` is `"length"`,
not `"tool_calls"` — the backend signal is *not* overridden. -/
theorem C3_counterexample :
    candidateHasFunctionCall c3Candidate = true ∧
    nonStreamingFinishReason c3Candidate = "length" ∧
    ("length" : String) ≠ "tool_calls" :=
  ⟨rfl, rfl, by decide⟩

/-- C3 (amended): tool calls force `finish_reason = "tool_calls"` only when
the backend finish signal is absent, empty, or `STOP`; `MAX_TOKENS` maps to
`length` and `SAFETY` to `content_filter` even when tool calls are present,
and any other signal maps to `stop`. Every synthesized tool call has id
`call_<timestamp>_<random suffix>`, type `function`, and JSON-stringified
arguments. -/
theorem C3_finish_reason (cand : GCandidate) (ts : Nat) (suffixes : Nat → String) :
    (candidateHasFunctionCall cand = true →
      cand.finishReason = none ∨ cand.finishReason = some "" ∨
        cand.finishReason = some "STOP" →
      nonStreamingFinishReason cand = "tool_calls") ∧
    (candidateHasFunctionCall cand = false →
      cand.finishReason = none ∨ cand.finishReason = some "" ∨
        cand.finishReason = some "STOP" →
      nonStreamingFinishReason cand = "stop") ∧
    (cand.finishReason = some "MAX_TOKENS" → nonStreamingFinishReason cand = "length") ∧
    (cand.finishReason = some "SAFETY" →
      nonStreamingFinishReason cand = "content_filter") ∧
    (∀ fr, cand.finishReason = some fr → fr ≠ "" → fr ≠ "STOP" → fr ≠ "MAX_TOKENS" →
      fr ≠ "SAFETY" → nonStreamingFinishReason cand = "stop") ∧
    (∀ tc ∈ collectToolCalls ts suffixes (cand.parts.getD []),
      tc.type = "function" ∧
      ∃ k fc, ((cand.parts.getD []).filterMap GPart.functionCall).get? k = some fc ∧
        tc.id = "call_" ++ toString ts ++ "_" ++ suffixes k ∧
        tc.name = fc.name ∧
        tc.argumentsJson = jsonStringify (jsArgsOrEmptyObj fc.args)) := by
  refine ⟨?_, ?_, ?_, ?_, ?_, ?_⟩
  · intro hfc hfr
    rcases hfr with h | h | h <;> simp [nonStreamingFinishReason, h, hfc]
  · intro hfc hfr
    rcases hfr with h | h | h <;> simp [nonStreamingFinishReason, h, hfc]
  · intro h; simp [nonStreamingFinishReason, h]
  · intro h; simp [nonStreamingFinishReason, h]
  · intro fr h h1 h2 h3 h4
    simp [nonStreamingFinishReason, h, h1, h2, h3, h4]
  · intro tc htc
    simp only [collectToolCalls, List.mem_map] at htc
    obtain ⟨p, hp, rfl⟩ := htc
    exact ⟨rfl, p.1, p.2, get?_of_mem_enum hp, rfl, rfl, rfl⟩

/-- Witness for C3: a `STOP` candidate with a function call normalizes to
`tool_calls`, and a synthesized call id has the documented shape. -/
theorem C3_finish_reason_witness :
    nonStreamingFinishReason ⟨some [⟨some "ok", some ⟨"f", none⟩⟩], some "STOP"⟩ =
      "tool_calls" ∧
    (collectToolCalls 99 (fun _ => "r4nd0m")
        ((⟨some [⟨some "ok", some ⟨"f", none⟩⟩], some "STOP"⟩ : GCandidate).parts.getD [])).map
      ToolCallOut.id = ["call_99_r4nd0m"] :=
  ⟨(C3_finish_reason ⟨some [⟨some "ok", some ⟨"f", none⟩⟩], some "STOP"⟩ 99
      (fun _ => "r4nd0m")).1 rfl (Or.inr (Or.inr rfl)), rfl⟩

/-! ### C2 — multi-tool fallback retry -/

theorem strConcat_nil : strConcat [] = "" := rfl

theorem strConcat_cons (s : String) (l : List String) :
    strConcat (s :: l) = s ++ strConcat l := rfl

theorem strConcat_data (l : List String) :
    (strConcat l).data = (l.map String.data).flatten := by
  induction l with
  | nil => rfl
  | cons s rest ih =>
    rw [strConcat_cons, List.map_cons, List.flatten_cons, String.data_append, ih]

theorem strConcat_append (a b : List String) :
    strConcat (a ++ b) = strConcat a ++ strConcat b := by
  induction a with
  | nil =>
    show strConcat b = "" ++ strConcat b
    rw [String.empty_append]
  | cons s rest ih =>
    show s ++ strConcat (rest ++ b) = (s ++ strConcat rest) ++ strConcat b
    rw [ih, String.append_assoc]

theorem emitWords_data (ws : List String) :
    ((emitWords ws).map String.data).flatten = joinWithChar ' ' (ws.map String.data) := by
  induction ws with
  | nil => rfl
  | cons w rest ih =>
    cases rest with
    | nil => simp [emitWords, joinWithChar]
    | cons w2 rest2 =>
      show ((w ++ " ").data ++ ((emitWords (w2 :: rest2)).map String.data).flatten) =
        joinWithChar ' ' (w.data :: (w2 :: rest2).map String.data)
      rw [ih, String.data_append]
      show w.data ++ [' '] ++ _ = w.data ++ ' ' :: joinWithChar ' ' ((w2 :: rest2).map String.data)
      simp

theorem jsSplit_data (s : String) (c : Char) :
    (jsSplit s c).map String.data = splitOnChar c s.data := by
  simp only [jsSplit, List.map_map]
  have : (String.data ∘ fun l => (⟨l⟩ : String)) = id := rfl
  rw [this, List.map_id]

/-- Re-emitting the space-split words with their separators restores the
chunk text exactly. -/
theorem strConcat_emitWords_split (s : String) :
    strConcat (emitWords (jsSplit s ' ')) = s := by
  have h1 : (strConcat (emitWords (jsSplit s ' '))).data = s.data := by
    rw [strConcat_data, emitWords_data, jsSplit_data, joinWithChar_splitOnChar]
  calc strConcat (emitWords (jsSplit s ' '))
      = String.mk (strConcat (emitWords (jsSplit s ' '))).data := rfl
    _ = String.mk s.data := by rw [h1]
    _ = s := rfl

theorem chunkToolCalls_isSome (ts : Nat) (suffix : String) (chunk : StreamChunk) :
    (chunkToolCalls ts suffix chunk).isSome = (chunkToolCalls 0 "" chunk).isSome := by
  cases chunk with
  | withCandidates cands =>
    cases cands with
    | nil => rfl
    | cons cand rest =>
      cases hp : cand.parts with
      | none => simp [chunkToolCalls, hp]
      | some parts =>
        cases parts with
        | nil => simp [chunkToolCalls, hp]
        | cons part prest =>
          cases hfc : part.functionCall with
          | none => simp [chunkToolCalls, hp, hfc]
          | some fc => simp [chunkToolCalls, hp, hfc]
  | textFn s => rfl
  | textProp s => rfl
  | other => rfl

theorem chunkToolCalls_eq_none (ts : Nat) (suffix : String) {chunk : StreamChunk}
    (h : chunkHasToolCalls chunk = false) : chunkToolCalls ts suffix chunk = none := by
  have h2 : (chunkToolCalls ts suffix chunk).isSome = false := by
    rw [chunkToolCalls_isSome]; exact h
  cases hx : chunkToolCalls ts suffix chunk with
  | none => rfl
  | some v => rw [hx] at h2; cases h2

theorem chunkFrames_no_fc (ts : Nat) (suffix : String) (chunk : StreamChunk)
    (h : chunkHasToolCalls chunk = false) :
    chunkFrames ts suffix chunk =
      (if chunkText chunk ≠ "" then emitWords (jsSplit (chunkText chunk) ' ')
       else []).map Frame.contentDelta := by
  rw [chunkFrames, chunkToolCalls_eq_none ts suffix h]
  by_cases htext : chunkText chunk = ""
  · simp [htext]
  · simp [htext]

theorem streamDeltas_exist (ts : Nat) (suffix : String) :
    ∀ chunks : List StreamChunk, (∀ ch ∈ chunks, chunkHasToolCalls ch = false) →
      ∃ deltas : List String,
        (chunks.map (chunkFrames ts suffix)).flatten = deltas.map Frame.contentDelta ∧
        strConcat deltas = strConcat (chunks.map chunkText) := by
  intro chunks
  induction chunks with
  | nil => intro _; exact ⟨[], rfl, rfl⟩
  | cons ch rest ih =>
    intro h
    obtain ⟨deltas, hd1, hd2⟩ := ih fun c hc => h c (List.mem_cons_of_mem ch hc)
    have hch := h ch (List.mem_cons_self ch rest)
    by_cases htext : chunkText ch = ""
    · refine ⟨deltas, ?_, ?_⟩
      · rw [List.map_cons, List.flatten_cons, chunkFrames_no_fc ts suffix ch hch, hd1]
        simp [htext]
      · rw [hd2, List.map_cons, strConcat_cons, htext]
        cases hr : strConcat (rest.map chunkText)
        rfl
    · refine ⟨emitWords (jsSplit (chunkText ch) ' ') ++ deltas, ?_, ?_⟩
      · rw [List.map_cons, List.flatten_cons, chunkFrames_no_fc ts suffix ch hch, hd1,
          List.map_append]
        simp [htext]
      · rw [strConcat_append, strConcat_emitWords_split, hd2, List.map_cons, strConcat_cons]

/-- C8: for a finite upstream stream with no function-call parts the
adapter emits only content-delta frames, whose contents concatenate to
exactly the concatenation of the upstream chunk texts, followed by a final
frame with `finish_reason = "stop"` and the `[DONE]` terminator. -/
theorem C8_streaming_adapter (ts : Nat) (suffix : String) (chunks : List StreamChunk)
    (hnofc : ∀ ch ∈ chunks, chunkHasToolCalls ch = false) :
    ∃ deltas : List String,
      streamFrames ts suffix chunks =
        deltas.map Frame.contentDelta ++ [Frame.finalFrame "stop", Frame.doneLine] ∧
      strConcat deltas = strConcat (chunks.map chunkText) := by
  obtain ⟨deltas, h1, h2⟩ := streamDeltas_exist ts suffix chunks hnofc
  refine ⟨deltas, ?_, h2⟩
  rw [streamFrames, h1]
  have hany : chunks.any chunkHasToolCalls = false := by
    rw [List.any_eq_false]
    intro ch hch
    simp [hnofc ch hch]
  rw [hany]
  simp

/-- Witness for C8: the spec's `["Hello", " world"]` stream concatenates to
`"Hello world"` and terminates with the `stop` frame and `[DONE]`. -/
theorem C8_streaming_adapter_witness :
    (∃ deltas : List String,
      streamFrames 7 "r4nd0m" [.textFn "Hello", .textFn " world"] =
        deltas.map Frame.contentDelta ++ [Frame.finalFrame "stop", Frame.doneLine] ∧
      strConcat deltas =
        strConcat ([StreamChunk.textFn "Hello", StreamChunk.textFn " world"].map chunkText)) ∧
    strConcat ([StreamChunk.textFn "Hello", StreamChunk.textFn " world"].map chunkText) =
      "Hello world" :=
  ⟨C8_streaming_adapter 7 "r4nd0m" [.textFn "Hello", .textFn " world"] (by decide), rfl⟩

/-! ### C10 — autonomous system-message injection -/

theorem autonomousInstructions_ne_empty (toolNames : String) :
    autonomousInstructions toolNames ≠ "" := by
  intro h
  have hl := congrArg String.length h
  rw [autonomousInstructions, String.length_append, String.length_append,
    String.length_append] at hl
  have h1 : (".").length = 1 := rfl
  have h0 : ("" : String).length = 0 := rfl
  rw [h1, h0] at hl
  omega

/-- C10: for the native provider, a non-empty `tools` array makes the
service prepend the synthesized autonomous system message (role `system`,
content the instruction template over the joined tool names) ahead of the
caller's messages before translation, so the first translated content
merges those instructions with the first user turn; with no tools the
caller's messages are translated unmodified. -/
theorem C10_autonomous_injection (tools : List ToolDecl) (messages : List Message) :
    (tools = [] → googleContents tools messages = processMessagesForVertexAI messages) ∧
    (tools ≠ [] →
      googleProcessedMessages tools messages =
        createAutonomousSystemMessage tools :: messages ∧
      (createAutonomousSystemMessage tools).role = "system" ∧
      (createAutonomousSystemMessage tools).content =
        some (.str (autonomousInstructions
          (String.intercalate ", " (tools.map fun t => t.function.name))))) ∧
    (tools ≠ [] → ∀ m0 rest0,
      messages.filter (fun m => m.role != "system") = m0 :: rest0 →
      m0.role = "user" → ∀ c, m0.content = some (.str c) →
      ∀ cs, googleContents tools messages = .ok cs →
      cs.head? = some ⟨"user", [.text (.str (autonomousInstructions
        (String.intercalate ", " (tools.map fun t => t.function.name)) ++
        "\n\nUser: " ++ c))]⟩) := by
  refine ⟨?_, ?_, ?_⟩
  · intro h
    rw [googleContents, googleProcessedMessages, h]
    rfl
  · intro h
    have hlen : tools.length > 0 := List.length_pos.mpr h
    exact ⟨by rw [googleProcessedMessages, if_pos hlen], rfl, rfl⟩
  · intro h m0 rest0 hfilter hrole c hc cs hcs
    have hlen : tools.length > 0 := List.length_pos.mpr h
    set instr := autonomousInstructions
      (String.intercalate ", " (tools.map fun t => t.function.name)) with hinstr
    rw [googleContents, googleProcessedMessages, if_pos hlen,
      processMessagesForVertexAI] at hcs
    have hfind : (createAutonomousSystemMessage tools :: messages).find?
        (fun m => m.role == "system") = some (createAutonomousSystemMessage tools) := by
      rw [List.find?_cons_of_pos]
      rfl
    have hfilter2 : (createAutonomousSystemMessage tools :: messages).filter
        (fun m => m.role != "system") = m0 :: rest0 := by
      rw [List.filter_cons_of_neg, hfilter]
      simp [createAutonomousSystemMessage]
    rw [hfind, hfilter2] at hcs
    dsimp only at hcs
    have hsys : extractMessageContent (createAutonomousSystemMessage tools) = .str instr :=
      rfl
    rw [hsys] at hcs
    have henum : (m0 :: rest0).enum = (0, m0) :: rest0.enumFrom 1 := rfl
    rw [henum, List.mapM_cons] at hcs
    have hm0 : processVertexMessage (.str instr) 0 m0 =
        .ok ⟨"user", [.text (.str (instr ++ "\n\nUser: " ++ c))]⟩ := by
      rw [processVertexMessage]
      have h1 : ¬m0.role = "tool" := by rw [hrole]; decide
      have h2 : ¬(m0.role = "assistant" ∧ m0.tool_calls.isSome = true) := by
        rw [hrole]; simp
      have h3 : jsTruthy (.str instr) = true := by
        simp only [jsTruthy, bne_iff_ne, ne_eq]
        rw [hinstr]
        exact autonomousInstructions_ne_empty _
      rw [if_neg h1, if_neg h2, if_pos ⟨rfl, hrole, h3⟩]
      have h4 : extractMessageContent m0 = .str c := by
        rw [extractMessageContent, hc]
      rw [h4]
      rfl
    rw [hm0] at hcs
    cases hrest : (rest0.enumFrom 1).mapM
        (fun p => processVertexMessage (.str instr) p.1 p.2) with
    | error e =>
      rw [hrest] at hcs
      cases hcs
    | ok cs2 =>
      rw [hrest] at hcs
      have : cs = ⟨"user", [.text (.str (instr ++ "\n\nUser: " ++ c))]⟩ :: cs2 := by
        cases hcs
        rfl
      rw [this]
      rfl

/-- Witness for C10: one concrete tool plus one user message yields the
merged autonomous-instruction first content. -/
theorem C10_autonomous_injection_witness :
    ∀ cs, googleContents [⟨"function", ⟨"builtin_read_file", none, none⟩⟩]
        [⟨"user", some (.str "hi"), none, none⟩] = .ok cs →
      cs.head? = some ⟨"user", [.text (.str (autonomousInstructions
        (String.intercalate ", "
          (([⟨"function", ⟨"builtin_read_file", none, none⟩⟩] : List ToolDecl).map
            fun t => t.function.name)) ++ "\n\nUser: " ++ "hi"))]⟩ :=
  (C10_autonomous_injection [⟨"function", ⟨"builtin_read_file", none, none⟩⟩]
    [⟨"user", some (.str "hi"), none, none⟩]).2.2 (List.cons_ne_nil _ _)
    ⟨"user", some (.str "hi"), none, none⟩ [] rfl rfl "hi" rfl

end AiServer
